import Mathlib

/-!
Verification of the MouseMod gene-drive core (two-deme recurrence, trajectory
runner and bisection search for the critical migration rate) against its
natural-language specification.

The arithmetic is embedded over `ℚ` (exact rational arithmetic, with Lean's
total division `x / 0 = 0`); every claim that depends on a denominator being
nonzero carries that hypothesis explicitly.  The bounded loops of the source
(`for generation in range(max_generations)` and the bisection `while`) are
embedded as fuel-indexed recursions; fuel sufficiency is proved where the
specification claims termination.
-/

/-- Migration phase, deme 1 (src/mousemod.py line 29, src/simulation.py line 33):
`q1_post = ((1 - alpha*m)*q1 + m*q2) / (1 - alpha*m + m)`. -/
def q1_post_migration (q1 q2 m alpha : ℚ) : ℚ :=
  ((1 - alpha*m) * q1 + m * q2) / (1 - alpha*m + m)

/-- Migration phase, deme 2 (src/mousemod.py line 30, src/simulation.py line 34):
`q2_post = ((1 - m)*q2 + alpha*m*q1) / (1 - m + alpha*m)`. -/
def q2_post_migration (q1 q2 m alpha : ℚ) : ℚ :=
  ((1 - m) * q2 + alpha*m * q1) / (1 - m + alpha*m)

/-- Selection component of non-converted heterozygotes
(src/simulation.py line 37): `s_n = 0.5 * (1 - c) * (1 - h * s)`. -/
def s_n (s c h : ℚ) : ℚ := 0.5 * (1 - c) * (1 - h * s)

/-- Selection component of converted heterozygotes
(src/simulation.py line 38): `s_c = c * (1 - s)`. -/
def s_c (s c : ℚ) : ℚ := c * (1 - s)

/-- Mean fitness of one deme at post-migration frequency `q`
(src/simulation.py lines 41-47, src/mousemod.py lines 33-38). -/
def mean_fitness (q s c h : ℚ) : ℚ :=
  q^2 * (1 - s) + 2 * q * (1 - q) * (2 * s_n s c h + s_c s c) + (1 - q)^2

/-- Selection phase for one deme
(src/simulation.py lines 50-54, src/mousemod.py lines 39-42):
`q_next = (q^2*(1-s) + 2*q*(1-q)*(s_n + s_c)) / mean_fitness`. -/
def selection_next (q s c h : ℚ) : ℚ :=
  (q^2 * (1 - s) + 2 * q * (1 - q) * (s_n s c h + s_c s c)) / mean_fitness q s c h

/-- One generation of the two-deme gene-drive recurrence
(src/mousemod.py `step_gene_drive`, lines 28-43; the identical arithmetic
forms the loop body of src/simulation.py `run_gene_drive_model`). -/
def step_gene_drive (q1 q2 s c h m alpha : ℚ) : ℚ × ℚ :=
  (selection_next (q1_post_migration q1 q2 m alpha) s c h,
   selection_next (q2_post_migration q1 q2 m alpha) s c h)

/-- Two-phase reference definition, written out from the specification's own
words (§4.1): first the migration blend producing `q1_post` and `q2_post`,
then, for each deme independently with `s_n = 0.5*(1-c)*(1-h*s)` and
`s_c = c*(1-s)`, the Hardy-Weinberg selection update dividing by the mean
fitness.  Kept self-contained so it can be compared with `step_gene_drive`. -/
def step_two_phase_reference (q1 q2 s c h m alpha : ℚ) : ℚ × ℚ :=
  let q1_post := ((1 - alpha*m) * q1 + m * q2) / (1 - alpha*m + m)
  let q2_post := ((1 - m) * q2 + alpha*m * q1) / (1 - m + alpha*m)
  let sn := 0.5 * (1 - c) * (1 - h * s)
  let sc := c * (1 - s)
  (((q1_post^2 * (1 - s) + 2 * q1_post * (1 - q1_post) * (sn + sc)) /
      (q1_post^2 * (1 - s) + 2 * q1_post * (1 - q1_post) * (2 * sn + sc) + (1 - q1_post)^2)),
   ((q2_post^2 * (1 - s) + 2 * q2_post * (1 - q2_post) * (sn + sc)) /
      (q2_post^2 * (1 - s) + 2 * q2_post * (1 - q2_post) * (2 * sn + sc) + (1 - q2_post)^2)))

/-- One step of the recurrence as a function on allele states, for iteration
(the state is the pair `(q1, q2)`). -/
def stepFun (s c h m alpha : ℚ) : ℚ × ℚ → ℚ × ℚ :=
  fun st => step_gene_drive st.1 st.2 s c h m alpha

/-- Convergence test of src/simulation.py lines 57-58:
`abs(q1_next - q1) < convergence_threshold and abs(q2_next - q2) < ...`. -/
def conv_test (threshold : ℚ) (cur next : ℚ × ℚ) : Prop :=
  |next.1 - cur.1| < threshold ∧ |next.2 - cur.2| < threshold

instance conv_test_decidable (threshold : ℚ) (cur next : ℚ × ℚ) :
    Decidable (conv_test threshold cur next) := by
  unfold conv_test; infer_instance

/-- Output of the generation loop of `run_gene_drive_model`: the final state,
the history entries appended by the loop (excluding the initial entry), and
the number of loop iterations executed (the value of the Python loop variable
`generation` plus one at exit). -/
structure LoopOut where
  final : ℚ × ℚ
  tail1 : List ℚ
  tail2 : List ℚ
  gens : Nat

/-- The generation loop of src/simulation.py lines 29-66: compute the next
state; if the convergence test holds, append it and stop; otherwise append it
and continue with the remaining iteration budget. -/
def run_loop (s c h m alpha threshold : ℚ) : Nat → ℚ × ℚ → LoopOut
  | 0, st => ⟨st, [], [], 0⟩
  | fuel + 1, st =>
    let next := stepFun s c h m alpha st
    if conv_test threshold st next then
      ⟨next, [next.1], [next.2], 1⟩
    else
      let r := run_loop s c h m alpha threshold fuel next
      ⟨r.final, next.1 :: r.tail1, next.2 :: r.tail2, r.gens + 1⟩

/-- Result of `run_gene_drive_model`: final frequencies and the two history
lists (src/simulation.py line 68), plus the number of generations executed
(the loop counter, observable in the source as `len(q1_history) - 1`). -/
structure RunResult where
  q1 : ℚ
  q2 : ℚ
  q1_history : List ℚ
  q2_history : List ℚ
  generations : Nat

/-- src/simulation.py `run_gene_drive_model` (lines 25-68): histories start
with the initial frequencies (lines 26-28) and the loop appends one entry per
executed generation. -/
def run_gene_drive_model (s c h m alpha initial_q1 initial_q2 : ℚ)
    (max_generations : Nat) (convergence_threshold : ℚ) : RunResult :=
  let r := run_loop s c h m alpha convergence_threshold max_generations (initial_q1, initial_q2)
  ⟨r.final.1, r.final.2, initial_q1 :: r.tail1, initial_q2 :: r.tail2, r.gens⟩

/-- Differential-targeting predicate of src/simulation.py line 85:
`has_dte = (0 < final_q2 < final_q1 < 1)`. -/
def has_dte (final_q1 final_q2 : ℚ) : Prop :=
  0 < final_q2 ∧ final_q2 < final_q1 ∧ final_q1 < 1

instance has_dte_decidable (final_q1 final_q2 : ℚ) :
    Decidable (has_dte final_q1 final_q2) := by
  unfold has_dte; infer_instance

/-- One iteration of the bisection of src/simulation.py lines 79-90: run the
model at the midpoint with the source's call arguments
(`max_generations = 10000`, `convergence_threshold = 1e-10`); raise `m_low` to
the midpoint when differential targeting occurs there, otherwise lower
`m_high` to the midpoint. -/
def bisect_update (s c h alpha initial_q1 initial_q2 : ℚ) (p : ℚ × ℚ) : ℚ × ℚ :=
  let m_mid := (p.1 + p.2) / 2
  let R := run_gene_drive_model s c h m_mid alpha initial_q1 initial_q2 10000 (1/10^10)
  if has_dte R.q1 R.q2 then (m_mid, p.2) else (p.1, m_mid)

/-- The bisection `while m_high - m_low > precision` loop of
src/simulation.py lines 79-91, fuel-indexed; returns `m_low`. -/
def bisect_loop (s c h alpha initial_q1 initial_q2 precision : ℚ) : Nat → ℚ × ℚ → ℚ
  | 0, p => p.1
  | fuel + 1, p =>
    if p.2 - p.1 ≤ precision then p.1
    else bisect_loop s c h alpha initial_q1 initial_q2 precision fuel
      (bisect_update s c h alpha initial_q1 initial_q2 p)

/-- src/simulation.py `find_critical_migration` (lines 70-91): bisection over
`[0.0, 0.5]` starting from `m_low = 0`, `m_high = 0.5`. -/
def find_critical_migration (s c h alpha initial_q1 initial_q2 precision : ℚ)
    (fuel : Nat) : ℚ :=
  bisect_loop s c h alpha initial_q1 initial_q2 precision fuel (0, 0.5)

/-- C1: one step of the recurrence coincides with the spec's two-phase
reference definition whenever the migration denominators and both mean
fitnesses are nonzero. -/
theorem step_matches_two_phase_reference (q1 q2 s c h m alpha : ℚ)
    (hd1 : 1 - alpha*m + m ≠ 0) (hd2 : 1 - m + alpha*m ≠ 0)
    (hw1 : mean_fitness (q1_post_migration q1 q2 m alpha) s c h ≠ 0)
    (hw2 : mean_fitness (q2_post_migration q1 q2 m alpha) s c h ≠ 0) :
    step_gene_drive q1 q2 s c h m alpha = step_two_phase_reference q1 q2 s c h m alpha := by
  rfl

/-- Witness for C1 at the spec's concrete scenario
`s=0.5, c=0.8, h=0.3, m=0.05, alpha=1, q1=0.7, q2=0.1`. -/
theorem step_matches_two_phase_reference_witness :
    step_gene_drive (7/10) (1/10) (1/2) (4/5) (3/10) (1/20) 1 =
      step_two_phase_reference (7/10) (1/10) (1/2) (4/5) (3/10) (1/20) 1 :=
  step_matches_two_phase_reference (7/10) (1/10) (1/2) (4/5) (3/10) (1/20) 1
    (by norm_num) (by norm_num)
    (by norm_num [mean_fitness, s_n, s_c, q1_post_migration])
    (by norm_num [mean_fitness, s_n, s_c, q2_post_migration])

/-- C4 counterexample: at `s = 0`, `c = 1`, `h = 0` and post-migration
frequency `q = 1/2` the mean fitness is exactly 1, yet the selection phase is
not a no-op: `selection_next` moves `1/2` to `3/4`. -/
theorem selection_not_noop_at_s_zero :
    mean_fitness (1/2) 0 1 0 = 1 ∧ selection_next (1/2) 0 1 0 ≠ 1/2 := by
  constructor
  · norm_num [mean_fitness, s_n, s_c]
  · norm_num [selection_next, mean_fitness, s_n, s_c]

/-- C4 (amended): for `s = 0` the mean fitness equals 1 exactly for every
`c`, `h` and every post-migration frequency `q`; the selection update then
simplifies to `q_next = q_post + c*q_post*(1-q_post)`, which is a no-op
exactly in the absence of conversion pressure — in particular when `c = 0`. -/
theorem mean_fitness_one_at_s_zero (c h q : ℚ) :
    mean_fitness q 0 c h = 1 ∧
    selection_next q 0 c h = q + c * (q * (1 - q)) ∧
    (c = 0 → selection_next q 0 c h = q) := by
  have hw : mean_fitness q 0 c h = 1 := by
    unfold mean_fitness s_n s_c; ring
  refine ⟨hw, ?_, ?_⟩
  · unfold selection_next
    rw [hw, div_one]
    unfold s_n s_c; ring
  · intro hc
    unfold selection_next
    rw [hw, div_one, hc]
    unfold s_n s_c; ring

/-- Witness for C4's amended theorem at `c = 0`, `h = 1`, `q = 1/2`. -/
theorem mean_fitness_one_at_s_zero_witness :
    mean_fitness (1/2) 0 0 1 = 1 ∧ selection_next (1/2) 0 0 1 = 1/2 := by
  have H := mean_fitness_one_at_s_zero 0 1 (1/2)
  exact ⟨H.1, by have := H.2.2 rfl; simpa using this⟩

/-- C5 counterexample: at `s = 1`, `c = 1` the claim's conclusion fails on the
fixed state `(1,1)` even though both migration denominators are nonzero
(`m = 1/10`, `alpha = 1`): the mean fitness of a fixed deme is `1 - s = 0`, so
the code divides by zero there, and the embedded step does not return `(1,1)`. -/
theorem fixed_state_fails_at_s_one :
    mean_fitness 1 1 1 0 = 0 ∧
    step_gene_drive 1 1 1 1 0 (1/10) 1 ≠ (1, 1) := by
  constructor
  · norm_num [mean_fitness, s_n, s_c]
  · intro hcontra
    have h1 : (step_gene_drive 1 1 1 1 0 (1/10) 1).1 = 1 := by rw [hcontra]
    norm_num [step_gene_drive, selection_next, mean_fitness, s_n, s_c,
      q1_post_migration] at h1

/-- C5 (amended): a fixed allele stays fixed under full conversion: for
`q1 = q2 = 1` and `c = 1`, every `s` in `[0,1)`, every `h` in `[0,1]` and
nonzero migration denominators, the step returns `(1,1)`.  (At `s = 1` the
mean fitness of a fixed deme is zero and the code's division is undefined.) -/
theorem step_fixed_at_full_conversion (s h m alpha : ℚ)
    (hs0 : 0 ≤ s) (hs1 : s < 1) (hh0 : 0 ≤ h) (hh1 : h ≤ 1)
    (hd1 : 1 - alpha*m + m ≠ 0) (hd2 : 1 - m + alpha*m ≠ 0) :
    step_gene_drive 1 1 s 1 h m alpha = (1, 1) := by
  have hs : (1 : ℚ) - s ≠ 0 := sub_ne_zero.mpr (ne_of_lt hs1).symm
  have hp1 : q1_post_migration 1 1 m alpha = 1 := by
    unfold q1_post_migration
    rw [div_eq_one_iff_eq hd1]; ring
  have hp2 : q2_post_migration 1 1 m alpha = 1 := by
    unfold q2_post_migration
    rw [div_eq_one_iff_eq hd2]; ring
  have hsel : selection_next 1 s 1 h = 1 := by
    unfold selection_next mean_fitness s_n s_c
    rw [show (1:ℚ)^2 * (1 - s) + 2 * 1 * (1 - 1) * (0.5 * (1 - 1) * (1 - h * s) + 1 * (1 - s))
        = 1 - s by ring,
      show (1:ℚ)^2 * (1 - s) + 2 * 1 * (1 - 1) * (2 * (0.5 * (1 - 1) * (1 - h * s)) + 1 * (1 - s))
        + (1 - 1)^2 = 1 - s by ring]
    exact div_self hs
  unfold step_gene_drive
  rw [hp1, hp2, hsel]

/-- Witness for C5's amended theorem at `s = 1/2`, `h = 1/2`, `m = 1/10`,
`alpha = 1`. -/
theorem step_fixed_at_full_conversion_witness :
    step_gene_drive 1 1 (1/2) 1 (1/2) (1/10) 1 = (1, 1) :=
  step_fixed_at_full_conversion (1/2) (1/2) (1/10) 1
    (by norm_num) (by norm_num) (by norm_num) (by norm_num) (by norm_num) (by norm_num)

/-- C6: the drive allele cannot appear spontaneously: from `q1 = q2 = 0`,
one step returns `(0,0)` for all valid parameters. -/
theorem step_absent_stays_absent (s c h m alpha : ℚ)
    (hs0 : 0 ≤ s) (hs1 : s ≤ 1) (hc0 : 0 ≤ c) (hc1 : c ≤ 1)
    (hh0 : 0 ≤ h) (hh1 : h ≤ 1)
    (hd1 : 1 - alpha*m + m ≠ 0) (hd2 : 1 - m + alpha*m ≠ 0) :
    step_gene_drive 0 0 s c h m alpha = (0, 0) := by
  have hp1 : q1_post_migration 0 0 m alpha = 0 := by
    unfold q1_post_migration
    rw [show ((1 - alpha*m) * 0 + m * 0 : ℚ) = 0 by ring, zero_div]
  have hp2 : q2_post_migration 0 0 m alpha = 0 := by
    unfold q2_post_migration
    rw [show ((1 - m) * 0 + alpha*m * 0 : ℚ) = 0 by ring, zero_div]
  have hsel : selection_next 0 s c h = 0 := by
    unfold selection_next
    rw [show ((0:ℚ)^2 * (1 - s) + 2 * 0 * (1 - 0) * (s_n s c h + s_c s c)) = 0 by ring, zero_div]
  unfold step_gene_drive
  rw [hp1, hp2, hsel]

/-- Witness for C6 at `s=1/2, c=4/5, h=3/10, m=1/20, alpha=1`. -/
theorem step_absent_stays_absent_witness :
    step_gene_drive 0 0 (1/2) (4/5) (3/10) (1/20) 1 = (0, 0) :=
  step_absent_stays_absent (1/2) (4/5) (3/10) (1/20) 1
    (by norm_num) (by norm_num) (by norm_num) (by norm_num) (by norm_num) (by norm_num)
    (by norm_num) (by norm_num)

/-- C7: with `m = 0` the migration phase is exactly the identity, for every
`q1`, `q2` and `alpha`. -/
theorem migration_noop_at_m_zero (q1 q2 alpha : ℚ) :
    q1_post_migration q1 q2 0 alpha = q1 ∧ q2_post_migration q1 q2 0 alpha = q2 := by
  constructor
  · unfold q1_post_migration; norm_num
  · unfold q2_post_migration; norm_num

/-- C10: equal demes stay equal: on the diagonal `q1 = q2 = q` the migration
phase returns `(q, q)` exactly (for any `m`, `alpha` with nonzero migration
denominators) and hence one step returns a state with equal components. -/
theorem step_preserves_diagonal (q s c h m alpha : ℚ)
    (hq0 : 0 ≤ q) (hq1 : q ≤ 1)
    (hd1 : 1 - alpha*m + m ≠ 0) (hd2 : 1 - m + alpha*m ≠ 0) :
    q1_post_migration q q m alpha = q ∧ q2_post_migration q q m alpha = q ∧
    (step_gene_drive q q s c h m alpha).1 = (step_gene_drive q q s c h m alpha).2 := by
  have hp1 : q1_post_migration q q m alpha = q := by
    unfold q1_post_migration
    rw [div_eq_iff hd1]; ring
  have hp2 : q2_post_migration q q m alpha = q := by
    unfold q2_post_migration
    rw [div_eq_iff hd2]; ring
  refine ⟨hp1, hp2, ?_⟩
  unfold step_gene_drive
  rw [hp1, hp2]

/-- Witness for C10 at `q = 1/2`, `s=c=h=1/2`, `m = 1/10`, `alpha = 1`. -/
theorem step_preserves_diagonal_witness :
    q1_post_migration (1/2) (1/2) (1/10) 1 = 1/2 ∧
    q2_post_migration (1/2) (1/2) (1/10) 1 = 1/2 ∧
    (step_gene_drive (1/2) (1/2) (1/2) (1/2) (1/2) (1/10) 1).1 =
      (step_gene_drive (1/2) (1/2) (1/2) (1/2) (1/2) (1/10) 1).2 :=
  step_preserves_diagonal (1/2) (1/2) (1/2) (1/2) (1/10) 1
    (by norm_num) (by norm_num) (by norm_num) (by norm_num)

/-- Unfolding: the loop with no remaining budget returns the current state. -/
theorem run_loop_zero (s c h m alpha threshold : ℚ) (st : ℚ × ℚ) :
    run_loop s c h m alpha threshold 0 st = ⟨st, [], [], 0⟩ := rfl

/-- Unfolding: a converged iteration appends the next state and stops. -/
theorem run_loop_succ_pos (s c h m alpha threshold : ℚ) (n : Nat) (st : ℚ × ℚ)
    (hc : conv_test threshold st (stepFun s c h m alpha st)) :
    run_loop s c h m alpha threshold (n + 1) st =
      ⟨stepFun s c h m alpha st, [(stepFun s c h m alpha st).1],
        [(stepFun s c h m alpha st).2], 1⟩ := by
  simp [run_loop, hc]

/-- Unfolding: a non-converged iteration appends the next state and recurses. -/
theorem run_loop_succ_neg (s c h m alpha threshold : ℚ) (n : Nat) (st : ℚ × ℚ)
    (hc : ¬ conv_test threshold st (stepFun s c h m alpha st)) :
    run_loop s c h m alpha threshold (n + 1) st =
      ⟨(run_loop s c h m alpha threshold n (stepFun s c h m alpha st)).final,
        (stepFun s c h m alpha st).1 ::
          (run_loop s c h m alpha threshold n (stepFun s c h m alpha st)).tail1,
        (stepFun s c h m alpha st).2 ::
          (run_loop s c h m alpha threshold n (stepFun s c h m alpha st)).tail2,
        (run_loop s c h m alpha threshold n (stepFun s c h m alpha st)).gens + 1⟩ := by
  simp [run_loop, hc]

/-- Master invariant of the generation loop: the iteration count is bounded by
the budget, the final state and every appended history entry are iterates of
`stepFun`, no iteration before the stopping one satisfies the convergence
test, and a stop before budget exhaustion happens only on a converged
iteration. -/
theorem run_loop_spec (s c h m alpha threshold : ℚ) (fuel : Nat) :
    ∀ (st : ℚ × ℚ) (o : LoopOut), o = run_loop s c h m alpha threshold fuel st →
      o.gens ≤ fuel ∧
      o.final = (stepFun s c h m alpha)^[o.gens] st ∧
      o.tail1.length = o.gens ∧ o.tail2.length = o.gens ∧
      (∀ k, k < o.gens →
        o.tail1.getD k 0 = ((stepFun s c h m alpha)^[k + 1] st).1 ∧
        o.tail2.getD k 0 = ((stepFun s c h m alpha)^[k + 1] st).2) ∧
      (∀ i, i + 1 < o.gens →
        ¬ conv_test threshold ((stepFun s c h m alpha)^[i] st)
          ((stepFun s c h m alpha)^[i + 1] st)) ∧
      (o.gens < fuel → 0 < o.gens ∧
        conv_test threshold ((stepFun s c h m alpha)^[o.gens - 1] st)
          ((stepFun s c h m alpha)^[o.gens] st)) := by
  induction fuel with
  | zero =>
      intro st o ho
      subst ho
      simp [run_loop_zero]
  | succ n ih =>
      intro st o ho
      by_cases hc : conv_test threshold st (stepFun s c h m alpha st)
      · rw [run_loop_succ_pos s c h m alpha threshold n st hc] at ho
        subst ho
        dsimp only
        refine ⟨Nat.succ_le_succ (Nat.zero_le n), by simp, rfl, rfl, ?_, ?_, ?_⟩
        · intro k hk
          have hk0 : k = 0 := by omega
          subst hk0
          simp
        · intro i hi
          omega
        · intro _
          exact ⟨one_pos, by simpa using hc⟩
      · rw [run_loop_succ_neg s c h m alpha threshold n st hc] at ho
        obtain ⟨ih1, ih2, ih3, ih4, ih5, ih6, ih7⟩ :=
          ih (stepFun s c h m alpha st)
            (run_loop s c h m alpha threshold n (stepFun s c h m alpha st)) rfl
        subst ho
        dsimp only
        set r := run_loop s c h m alpha threshold n (stepFun s c h m alpha st) with hr
        refine ⟨by omega, ?_, by simp [ih3], by simp [ih4], ?_, ?_, ?_⟩
        · rw [Function.iterate_succ_apply]
          exact ih2
        · intro k hk
          cases k with
          | zero => simp
          | succ j =>
            obtain ⟨e1, e2⟩ := ih5 j (by omega)
            constructor
            · rw [List.getD_cons_succ, e1, ← Function.iterate_succ_apply]
            · rw [List.getD_cons_succ, e2, ← Function.iterate_succ_apply]
        · intro i hi
          cases i with
          | zero => simpa using hc
          | succ j =>
            have hthis := ih6 j (by omega)
            simp only [Function.iterate_succ_apply] at hthis ⊢
            exact hthis
        · intro hlt
          obtain ⟨hpos, hconv⟩ := ih7 (by omega)
          refine ⟨by omega, ?_⟩
          obtain ⟨j, hj⟩ : ∃ j, r.gens = j + 1 := ⟨r.gens - 1, by omega⟩
          rw [hj]
          rw [hj] at hconv
          simp only [Nat.add_sub_cancel] at hconv ⊢
          simp only [Function.iterate_succ_apply] at hconv ⊢
          exact hconv

/-- C2: the trajectory produced by `run_gene_drive_model` starts with the
initial state, its `i`-th entry is the `i`-th iterate of the step function,
its length is the number of generations executed plus one, and the returned
final frequencies are the last entries of the two history lists. -/
theorem run_trajectory_matches_iteration
    (s c h m alpha initial_q1 initial_q2 threshold : ℚ) (N : Nat) (R : RunResult)
    (hR : R = run_gene_drive_model s c h m alpha initial_q1 initial_q2 N threshold) :
    (R.q1_history.getD 0 0 = initial_q1 ∧ R.q2_history.getD 0 0 = initial_q2) ∧
    (∀ i, i < R.q1_history.length →
      R.q1_history.getD i 0 = ((stepFun s c h m alpha)^[i] (initial_q1, initial_q2)).1 ∧
      R.q2_history.getD i 0 = ((stepFun s c h m alpha)^[i] (initial_q1, initial_q2)).2) ∧
    (R.q1_history.length = R.generations + 1 ∧
     R.q2_history.length = R.generations + 1) ∧
    (R.q1 = R.q1_history.getD R.generations 0 ∧
     R.q2 = R.q2_history.getD R.generations 0) := by
  obtain ⟨h1, h2, h3, h4, h5, h6, h7⟩ :=
    run_loop_spec s c h m alpha threshold N (initial_q1, initial_q2)
      (run_loop s c h m alpha threshold N (initial_q1, initial_q2)) rfl
  subst hR
  unfold run_gene_drive_model
  refine ⟨⟨rfl, rfl⟩, ?_, ⟨by simpa using h3, by simpa using h4⟩, ?_, ?_⟩
  · intro i hi
    match i with
    | 0 => simp
    | Nat.succ k =>
      have hk : k < (run_loop s c h m alpha threshold N (initial_q1, initial_q2)).gens := by
        simp only [List.length_cons, h3] at hi
        omega
      obtain ⟨e1, e2⟩ := h5 k hk
      exact ⟨by simpa using e1, by simpa using e2⟩
  · show (run_loop s c h m alpha threshold N (initial_q1, initial_q2)).final.1 =
      (initial_q1 :: (run_loop s c h m alpha threshold N (initial_q1, initial_q2)).tail1).getD
        (run_loop s c h m alpha threshold N (initial_q1, initial_q2)).gens 0
    rcases hg : (run_loop s c h m alpha threshold N (initial_q1, initial_q2)).gens with _ | k
    · rw [hg] at h2
      simp [h2]
    · rw [hg] at h2
      have e1 := (h5 k (by rw [hg]; omega)).1
      rw [List.getD_cons_succ, e1, h2]
  · show (run_loop s c h m alpha threshold N (initial_q1, initial_q2)).final.2 =
      (initial_q2 :: (run_loop s c h m alpha threshold N (initial_q1, initial_q2)).tail2).getD
        (run_loop s c h m alpha threshold N (initial_q1, initial_q2)).gens 0
    rcases hg : (run_loop s c h m alpha threshold N (initial_q1, initial_q2)).gens with _ | k
    · rw [hg] at h2
      simp [h2]
    · rw [hg] at h2
      have e2 := (h5 k (by rw [hg]; omega)).2
      rw [List.getD_cons_succ, e2, h2]

/-- Witness for C2 at a concrete run (`s=c=h=m=0`, budget 1, threshold 0). -/
theorem run_trajectory_matches_iteration_witness :
    (run_gene_drive_model 0 0 0 0 1 (7/10) (1/10) 1 0).q1_history.getD 0 0 =
      ((stepFun 0 0 0 0 1)^[0] ((7:ℚ)/10, (1:ℚ)/10)).1 := by
  have H := run_trajectory_matches_iteration 0 0 0 0 1 (7/10) (1/10) 0 1
    (run_gene_drive_model 0 0 0 0 1 (7/10) (1/10) 1 0) rfl
  exact (H.2.1 0 (by simp [run_gene_drive_model, run_loop])).1

/-- C3: the runner stops early exactly when some iteration's computed next
state passes the convergence test before the budget is exhausted; the
converged state is still appended (history length is `generations + 1` and
the returned state is the last iterate); budget exhaustion is a normal
terminal condition: the loop always stops within `max_generations`
iterations and returns the last computed state. -/
theorem run_stops_on_convergence_or_budget
    (s c h m alpha initial_q1 initial_q2 threshold : ℚ) (N : Nat) (R : RunResult)
    (hR : R = run_gene_drive_model s c h m alpha initial_q1 initial_q2 N threshold) :
    R.generations ≤ N ∧
    (∀ i, i + 1 < R.generations →
      ¬ conv_test threshold ((stepFun s c h m alpha)^[i] (initial_q1, initial_q2))
        ((stepFun s c h m alpha)^[i + 1] (initial_q1, initial_q2))) ∧
    (R.generations < N → 0 < R.generations ∧
      conv_test threshold
        ((stepFun s c h m alpha)^[R.generations - 1] (initial_q1, initial_q2))
        ((stepFun s c h m alpha)^[R.generations] (initial_q1, initial_q2))) ∧
    (R.generations < N ↔ ∃ i, i + 1 < N ∧
      (∀ j, j < i →
        ¬ conv_test threshold ((stepFun s c h m alpha)^[j] (initial_q1, initial_q2))
          ((stepFun s c h m alpha)^[j + 1] (initial_q1, initial_q2))) ∧
      conv_test threshold ((stepFun s c h m alpha)^[i] (initial_q1, initial_q2))
        ((stepFun s c h m alpha)^[i + 1] (initial_q1, initial_q2))) ∧
    (R.q1_history.length = R.generations + 1 ∧
     R.q1 = ((stepFun s c h m alpha)^[R.generations] (initial_q1, initial_q2)).1 ∧
     R.q2 = ((stepFun s c h m alpha)^[R.generations] (initial_q1, initial_q2)).2) := by
  obtain ⟨h1, h2, h3, h4, h5, h6, h7⟩ :=
    run_loop_spec s c h m alpha threshold N (initial_q1, initial_q2)
      (run_loop s c h m alpha threshold N (initial_q1, initial_q2)) rfl
  subst hR
  have hgen : (run_gene_drive_model s c h m alpha initial_q1 initial_q2 N threshold).generations
      = (run_loop s c h m alpha threshold N (initial_q1, initial_q2)).gens := rfl
  have hq1 : (run_gene_drive_model s c h m alpha initial_q1 initial_q2 N threshold).q1
      = (run_loop s c h m alpha threshold N (initial_q1, initial_q2)).final.1 := rfl
  have hq2 : (run_gene_drive_model s c h m alpha initial_q1 initial_q2 N threshold).q2
      = (run_loop s c h m alpha threshold N (initial_q1, initial_q2)).final.2 := rfl
  have hh1 : (run_gene_drive_model s c h m alpha initial_q1 initial_q2 N threshold).q1_history
      = initial_q1 :: (run_loop s c h m alpha threshold N (initial_q1, initial_q2)).tail1 := rfl
  rw [hgen, hq1, hq2, hh1]
  set rl := run_loop s c h m alpha threshold N (initial_q1, initial_q2) with hrl
  refine ⟨h1, h6, h7, ?_, by simp [h3], ?_, ?_⟩
  · constructor
    · intro hlt
      obtain ⟨hpos, hconv⟩ := h7 hlt
      obtain ⟨gp, hgp⟩ : ∃ gp, rl.gens = gp + 1 := ⟨rl.gens - 1, by omega⟩
      refine ⟨gp, by omega, ?_, ?_⟩
      · intro j hj
        exact h6 j (by omega)
      · rw [hgp] at hconv
        simpa using hconv
    · rintro ⟨i, hiN, -, hconv⟩
      by_contra hnot
      exact (h6 i (by omega)) hconv
  · rw [h2]
  · rw [h2]

/-- Witness for C3 at a converging concrete run (`s=c=h=m=0`, threshold 1,
budget 2: the first iteration converges, so the run stops early). -/
theorem run_stops_on_convergence_or_budget_witness :
    0 < (run_gene_drive_model 0 0 0 0 1 (1/2) (1/2) 2 1).generations ∧
    conv_test 1
      ((stepFun 0 0 0 0 1)^[(run_gene_drive_model 0 0 0 0 1 (1/2) (1/2) 2 1).generations - 1]
        ((1:ℚ)/2, (1:ℚ)/2))
      ((stepFun 0 0 0 0 1)^[(run_gene_drive_model 0 0 0 0 1 (1/2) (1/2) 2 1).generations]
        ((1:ℚ)/2, (1:ℚ)/2)) :=
  (run_stops_on_convergence_or_budget 0 0 0 0 1 (1/2) (1/2) 1 2
    (run_gene_drive_model 0 0 0 0 1 (1/2) (1/2) 2 1) rfl).2.2.1 (by
      have hstep : stepFun 0 0 0 0 1 ((1:ℚ)/2, (1:ℚ)/2) = ((1:ℚ)/2, (1:ℚ)/2) := by
        norm_num [stepFun, step_gene_drive, selection_next, mean_fitness, s_n, s_c,
          q1_post_migration, q2_post_migration]
      have hconv : conv_test 1 ((1:ℚ)/2, (1:ℚ)/2) (stepFun 0 0 0 0 1 ((1:ℚ)/2, (1:ℚ)/2)) := by
        rw [hstep]
        norm_num [conv_test]
      have hgens : (run_gene_drive_model 0 0 0 0 1 (1/2) (1/2) 2 1).generations = 1 := by
        show (run_loop 0 0 0 0 1 1 (1 + 1) ((1:ℚ)/2, (1:ℚ)/2)).gens = 1
        rw [run_loop_succ_pos 0 0 0 0 1 1 1 ((1:ℚ)/2, (1:ℚ)/2) hconv]
      rw [hgens]
      norm_num)

section Bisection

variable (s c h alpha initial_q1 initial_q2 precision : ℚ)

/-- Unfolding: the bisection loop with no remaining budget returns `m_low`. -/
theorem bisect_loop_zero (p : ℚ × ℚ) :
    bisect_loop s c h alpha initial_q1 initial_q2 precision 0 p = p.1 := rfl

/-- Unfolding: one bisection iteration checks the loop guard first. -/
theorem bisect_loop_succ (n : Nat) (p : ℚ × ℚ) :
    bisect_loop s c h alpha initial_q1 initial_q2 precision (n + 1) p =
      if p.2 - p.1 ≤ precision then p.1
      else bisect_loop s c h alpha initial_q1 initial_q2 precision n
        (bisect_update s c h alpha initial_q1 initial_q2 p) := rfl

/-- Each bisection iteration exactly halves the interval width. -/
theorem bisect_update_width (p : ℚ × ℚ) :
    (bisect_update s c h alpha initial_q1 initial_q2 p).2 -
      (bisect_update s c h alpha initial_q1 initial_q2 p).1 = (p.2 - p.1) / 2 := by
  unfold bisect_update
  dsimp only
  split
  · ring
  · ring

/-- Each bisection iteration keeps the interval nested and ordered. -/
theorem bisect_update_bounds (p : ℚ × ℚ) (hle : p.1 ≤ p.2) :
    p.1 ≤ (bisect_update s c h alpha initial_q1 initial_q2 p).1 ∧
    (bisect_update s c h alpha initial_q1 initial_q2 p).2 ≤ p.2 ∧
    (bisect_update s c h alpha initial_q1 initial_q2 p).1 ≤
      (bisect_update s c h alpha initial_q1 initial_q2 p).2 := by
  unfold bisect_update
  dsimp only
  split
  · exact ⟨by linarith, le_refl _, by linarith⟩
  · exact ⟨le_refl _, by linarith, by linarith⟩

/-- Interval invariant along the bisection iterates from `(0, 0.5)`. -/
theorem bisect_iter_inv (k : Nat) :
    0 ≤ ((bisect_update s c h alpha initial_q1 initial_q2)^[k] (0, 0.5)).1 ∧
    ((bisect_update s c h alpha initial_q1 initial_q2)^[k] (0, 0.5)).1 ≤
      ((bisect_update s c h alpha initial_q1 initial_q2)^[k] (0, 0.5)).2 ∧
    ((bisect_update s c h alpha initial_q1 initial_q2)^[k] (0, 0.5)).2 ≤ 0.5 := by
  induction k with
  | zero => norm_num
  | succ n ih =>
      rw [Function.iterate_succ_apply']
      obtain ⟨i1, i2, i3⟩ := ih
      obtain ⟨b1, b2, b3⟩ := bisect_update_bounds s c h alpha initial_q1 initial_q2 _ i2
      exact ⟨le_trans i1 b1, b3, le_trans b2 i3⟩

/-- Width of the bisection interval after `k` iterations from `(0, 0.5)`. -/
theorem bisect_iter_width (k : Nat) :
    ((bisect_update s c h alpha initial_q1 initial_q2)^[k] (0, 0.5)).2 -
      ((bisect_update s c h alpha initial_q1 initial_q2)^[k] (0, 0.5)).1 =
      (1/2) / 2^k := by
  induction k with
  | zero => norm_num
  | succ n ih =>
      rw [Function.iterate_succ_apply', bisect_update_width, ih, pow_succ]
      ring

/-- The bisection result stays in the current interval. -/
theorem bisect_loop_mem (fuel : Nat) :
    ∀ p : ℚ × ℚ, 0 ≤ p.1 → p.1 ≤ p.2 → p.2 ≤ 0.5 →
      0 ≤ bisect_loop s c h alpha initial_q1 initial_q2 precision fuel p ∧
      bisect_loop s c h alpha initial_q1 initial_q2 precision fuel p ≤ 0.5 := by
  induction fuel with
  | zero =>
      intro p h0 h1 h2
      rw [bisect_loop_zero]
      exact ⟨h0, le_trans h1 h2⟩
  | succ n ih =>
      intro p h0 h1 h2
      rw [bisect_loop_succ]
      split
      · exact ⟨h0, le_trans h1 h2⟩
      · obtain ⟨b1, b2, b3⟩ := bisect_update_bounds s c h alpha initial_q1 initial_q2 p h1
        exact ih _ (le_trans h0 b1) b3 (le_trans b2 h2)

/-- Once the stop condition is reachable within `K` iterations, additional
fuel does not change the bisection result: the loop has terminated. -/
theorem bisect_loop_stable (K : Nat) :
    ∀ p : ℚ × ℚ,
      ((bisect_update s c h alpha initial_q1 initial_q2)^[K] p).2 -
        ((bisect_update s c h alpha initial_q1 initial_q2)^[K] p).1 ≤ precision →
      ∀ j, bisect_loop s c h alpha initial_q1 initial_q2 precision (K + j) p =
        bisect_loop s c h alpha initial_q1 initial_q2 precision K p := by
  induction K with
  | zero =>
      intro p hw j
      simp only [Function.iterate_zero_apply] at hw
      cases j with
      | zero => rfl
      | succ n =>
          rw [Nat.zero_add, bisect_loop_succ, bisect_loop_zero, if_pos hw]
  | succ K ih =>
      intro p hw j
      rw [Function.iterate_succ_apply] at hw
      have harith : K + 1 + j = (K + j) + 1 := by omega
      rw [harith, bisect_loop_succ, bisect_loop_succ]
      by_cases hstop : p.2 - p.1 ≤ precision
      · rw [if_pos hstop, if_pos hstop]
      · rw [if_neg hstop, if_neg hstop]
        exact ih (bisect_update s c h alpha initial_q1 initial_q2 p) hw j

/-- C8: the bisection of `find_critical_migration` maintains
`0 ≤ m_low ≤ m_high ≤ 0.5` at every iteration, each iteration moves one bound
to the midpoint according to the differential-targeting predicate evaluated on
the converged trajectory at the midpoint, the loop stops (returning `m_low`)
as soon as `m_high - m_low ≤ precision`, and the returned value always lies
in `[0, 0.5]`. -/
theorem find_critical_migration_bisection :
    (∀ k, 0 ≤ ((bisect_update s c h alpha initial_q1 initial_q2)^[k] (0, 0.5)).1 ∧
      ((bisect_update s c h alpha initial_q1 initial_q2)^[k] (0, 0.5)).1 ≤
        ((bisect_update s c h alpha initial_q1 initial_q2)^[k] (0, 0.5)).2 ∧
      ((bisect_update s c h alpha initial_q1 initial_q2)^[k] (0, 0.5)).2 ≤ 0.5) ∧
    (∀ p : ℚ × ℚ,
      (has_dte (run_gene_drive_model s c h ((p.1 + p.2) / 2) alpha initial_q1 initial_q2
          10000 (1/10^10)).q1
        (run_gene_drive_model s c h ((p.1 + p.2) / 2) alpha initial_q1 initial_q2
          10000 (1/10^10)).q2 →
        bisect_update s c h alpha initial_q1 initial_q2 p = ((p.1 + p.2) / 2, p.2)) ∧
      (¬ has_dte (run_gene_drive_model s c h ((p.1 + p.2) / 2) alpha initial_q1 initial_q2
          10000 (1/10^10)).q1
        (run_gene_drive_model s c h ((p.1 + p.2) / 2) alpha initial_q1 initial_q2
          10000 (1/10^10)).q2 →
        bisect_update s c h alpha initial_q1 initial_q2 p = (p.1, (p.1 + p.2) / 2))) ∧
    (∀ (fuel : Nat) (p : ℚ × ℚ), p.2 - p.1 ≤ precision →
      bisect_loop s c h alpha initial_q1 initial_q2 precision (fuel + 1) p = p.1) ∧
    (∀ fuel : Nat,
      0 ≤ find_critical_migration s c h alpha initial_q1 initial_q2 precision fuel ∧
      find_critical_migration s c h alpha initial_q1 initial_q2 precision fuel ≤ 0.5) := by
  refine ⟨bisect_iter_inv s c h alpha initial_q1 initial_q2, ?_, ?_, ?_⟩
  · intro p
    constructor
    · intro hd
      unfold bisect_update
      dsimp only
      rw [if_pos hd]
    · intro hd
      unfold bisect_update
      dsimp only
      rw [if_neg hd]
  · intro fuel p hstop
    rw [bisect_loop_succ, if_pos hstop]
  · intro fuel
    exact bisect_loop_mem s c h alpha initial_q1 initial_q2 precision fuel (0, 0.5)
      le_rfl (by norm_num) (by norm_num)

/-- C9: for `0 < precision` and any iteration count `K` at least
`ceil(log2(0.5/precision))` (characterised by `1/2 ≤ 2^K * precision`), the
interval width after `K` bisection iterations is at most `precision`, so the
loop has terminated: any further fuel leaves the result unchanged. -/
theorem bisect_terminates_within_log_bound (K : Nat)
    (hp : 0 < precision) (hK : 1/2 ≤ 2^K * precision) :
    ((bisect_update s c h alpha initial_q1 initial_q2)^[K] (0, 0.5)).2 -
      ((bisect_update s c h alpha initial_q1 initial_q2)^[K] (0, 0.5)).1 ≤ precision ∧
    ∀ j, find_critical_migration s c h alpha initial_q1 initial_q2 precision (K + j) =
      find_critical_migration s c h alpha initial_q1 initial_q2 precision K := by
  have hw := bisect_iter_width s c h alpha initial_q1 initial_q2 K
  have hle : (1/2 : ℚ) / 2^K ≤ precision := by
    rw [div_le_iff (by positivity)]
    calc (1/2 : ℚ) ≤ 2^K * precision := hK
      _ = precision * 2^K := by ring
  constructor
  · rw [hw]
    exact hle
  · intro j
    unfold find_critical_migration
    exact bisect_loop_stable s c h alpha initial_q1 initial_q2 precision K (0, 0.5)
      (by rw [hw]; exact hle) j

end Bisection

/-- Witness for C8 (stop condition conjunct) at concrete arguments:
with `precision = 1` the interval `(0, 1/2)` already satisfies the guard. -/
theorem find_critical_migration_bisection_witness :
    bisect_loop 0 0 0 1 (7/10) (1/10) 1 1 ((0:ℚ), 1/2) = 0 :=
  (find_critical_migration_bisection 0 0 0 1 (7/10) (1/10) 1).2.2.1 0 ((0:ℚ), 1/2)
    (by norm_num)

/-- Witness for C9 at `precision = 1/2`, `K = 0`, extra fuel `j = 1`. -/
theorem bisect_terminates_within_log_bound_witness :
    find_critical_migration 0 0 0 1 (7/10) (1/10) (1/2) 1 =
      find_critical_migration 0 0 0 1 (7/10) (1/10) (1/2) 0 :=
  (bisect_terminates_within_log_bound 0 0 0 1 (7/10) (1/10) (1/2) 0
    (by norm_num) (by norm_num)).2 1
